import Mathlib

/-!
# Numi landing page: scroll tracking and pointer parallax

A shallow embedding of the event handlers of `src/numi-landing/src/App.jsx`
that carry runtime behaviour:

* `onScroll` (App.jsx 216-231): scroll progress and active navigation section;
* `handleParallax` (App.jsx 281-289) and the event props of the hero section
  (App.jsx 489-496): pointer driven transforms of the decoration circles;
* the `darkMode` initializer, effect and toggle (App.jsx 193-209, 376-380);
* `MagneticButton` (App.jsx 155-172);
* the reveal flags and scroll-linked bindings (App.jsx 252-278), over models of
  the two animation-library hooks they call.

Numbers. In the scroll and parallax handlers JavaScript numbers are modelled as
exact rationals (`ℚ`); where the source divides by a value that can be zero
the result lives in `JSNum`, the rationals extended with `NaN` and the two
infinities. Rounding of IEEE doubles and the sign of zero are not modelled
there. `MagneticButton`, whose bound is tight to the last bit, is modelled on
doubles with every operation rounded (`JSDouble`).
-/

namespace NumiLanding

/-! ## Numbers -/

/-- A JavaScript number: a finite value (an exact rational here), `Infinity`,
`-Infinity` or `NaN`. -/
inductive JSNum where
  | finite (q : ℚ)
  | posInf
  | negInf
  | nan
  deriving DecidableEq

namespace JSNum

/-- The infinity with the sign of `q`, for `q ≠ 0`. -/
def infOfSign (q : ℚ) : JSNum :=
  if 0 < q then posInf else negInf

/-- JavaScript `a / b`. A non-zero finite value over zero is an infinity,
zero over zero is `NaN`. -/
def div : JSNum → JSNum → JSNum
  | nan, _ => nan
  | _, nan => nan
  | finite a, finite b =>
    if b = 0 then (if a = 0 then nan else infOfSign a) else finite (a / b)
  | finite _, posInf => finite 0
  | finite _, negInf => finite 0
  | posInf, finite b => if 0 ≤ b then posInf else negInf
  | negInf, finite b => if 0 ≤ b then negInf else posInf
  | posInf, posInf => nan
  | posInf, negInf => nan
  | negInf, posInf => nan
  | negInf, negInf => nan

/-- JavaScript `a * b`. An infinity times zero is `NaN`. -/
def mul : JSNum → JSNum → JSNum
  | nan, _ => nan
  | _, nan => nan
  | finite a, finite b => finite (a * b)
  | finite a, posInf => if a = 0 then nan else infOfSign a
  | finite a, negInf => if a = 0 then nan else infOfSign (-a)
  | posInf, finite b => if b = 0 then nan else infOfSign b
  | negInf, finite b => if b = 0 then nan else infOfSign (-b)
  | posInf, posInf => posInf
  | posInf, negInf => negInf
  | negInf, posInf => negInf
  | negInf, negInf => posInf

end JSNum

/-! ## Navigation sections (App.jsx 25-32) -/

/-- An entry of the `sections` table. -/
structure SectionDescriptor where
  id : String
  label : String
  deriving DecidableEq, Repr

/-- The constant `sections` of App.jsx. -/
def sections : List SectionDescriptor :=
  [ { id := "hero", label := "Home" },
    { id := "features", label := "Features" },
    { id := "how-it-works", label := "How It Works" },
    { id := "testimonials", label := "Testimonials" },
    { id := "faq", label := "FAQ" },
    { id := "cta", label := "Get Started" } ]

/-! ## The scroll handler (App.jsx 211-236) -/

/-- What `onScroll` reads of an element returned by `document.getElementById`. -/
structure Element where
  offsetTop : ℚ
  deriving DecidableEq

/-- What `onScroll` reads of the browser: `window.scrollY`,
`document.documentElement.scrollHeight`, `window.innerHeight` and
`document.getElementById` (`none` for `null`). -/
structure Dom where
  scrollY : ℚ
  scrollHeight : ℚ
  innerHeight : ℚ
  getElementById : String → Option Element

/-- The two state cells `onScroll` sets. -/
structure ScrollState where
  scrollProgress : JSNum
  activeSection : String

/-- The expression `(scrollTop / docHeight) * 100`. -/
def progressPercent (scrollTop docHeight : ℚ) : JSNum :=
  JSNum.mul (JSNum.div (.finite scrollTop) (.finite docHeight)) (.finite 100)

/-- One iteration of `for (const sec of sections)`: the value of `current`
after the body has run for `sec`. -/
def scanStep (d : Dom) (scrollTop : ℚ) (current : String) (sec : SectionDescriptor) : String :=
  match d.getElementById sec.id with
  | some el =>
    let offsetTop := el.offsetTop - 150
    if scrollTop ≥ offsetTop then sec.id else current
  | none => current

/-- The loop of `onScroll` over a list of sections, `current` starting at `"hero"`. -/
def detectActive (secs : List SectionDescriptor) (d : Dom) (scrollTop : ℚ) : String :=
  secs.foldl (scanStep d scrollTop) "hero"

/-- The handler `onScroll`: the values passed to `setScrollProgress` and
`setActiveSection`. -/
def onScroll (d : Dom) : ScrollState :=
  let scrollTop := d.scrollY
  let docHeight := d.scrollHeight - d.innerHeight
  { scrollProgress := progressPercent scrollTop docHeight
    activeSection := detectActive sections d scrollTop }

/-- Position of a section id in the declared `sections` list. -/
def sectionIndex (id : String) : Nat :=
  (sections.map (·.id)).indexOf id

/-- Whether `sec` has an anchor in the document whose top, less the 150px
lookahead, has been scrolled past at scroll position `s`. -/
def scrolledPast (d : Dom) (s : ℚ) (sec : SectionDescriptor) : Bool :=
  match d.getElementById sec.id with
  | some el => decide (s ≥ el.offsetTop - 150)
  | none => false

/-- The active section as the specification words it: the last section in
declared order whose anchor is present and scrolled past, else the first
section. -/
def specActiveSection (secs : List SectionDescriptor) (d : Dom) : String :=
  match (secs.filter (scrolledPast d d.scrollY)).getLast? with
  | some sec => sec.id
  | none => "hero"

/-- A document with anchors for the first three sections at top offsets 0, 800
and 1600 and no other anchor, scrolled to `s`. -/
def threeAnchors (s scrollHeight innerHeight : ℚ) : Dom :=
  { scrollY := s
    scrollHeight := scrollHeight
    innerHeight := innerHeight
    getElementById := fun id =>
      if id = "hero" then some ⟨0⟩
      else if id = "features" then some ⟨800⟩
      else if id = "how-it-works" then some ⟨1600⟩
      else none }

/-- A document in which no section has an anchor. -/
def noAnchors (s scrollHeight innerHeight : ℚ) : Dom :=
  { scrollY := s
    scrollHeight := scrollHeight
    innerHeight := innerHeight
    getElementById := fun _ => none }

/-- A document whose hero is short: the features anchor sits 100px from the top. -/
def shortHero (s : ℚ) : Dom :=
  { scrollY := s
    scrollHeight := 3000
    innerHeight := 600
    getElementById := fun id =>
      if id = "hero" then some ⟨0⟩
      else if id = "features" then some ⟨100⟩
      else none }

/-- A document of equal height to the viewport (nothing to scroll), at rest. -/
def fitsViewport : Dom :=
  { scrollY := 0
    scrollHeight := 800
    innerHeight := 800
    getElementById := fun id => if id = "hero" then some ⟨0⟩ else none }

/-! ## Pointer parallax (App.jsx 280-289, 489-496) -/

/-- What `handleParallax` reads of `window`. -/
structure Viewport where
  innerWidth : ℚ
  innerHeight : ℚ

/-- What `handleParallax` reads of its argument, a mouse event or a touch point. -/
structure PointerPos where
  clientX : ℚ
  clientY : ℚ

/-- The value assigned to `circle.style.transform`:
`translate(<x>px, <y>px) rotate(<rotate>deg)`. -/
structure Transform where
  x : ℚ
  y : ℚ
  rotate : ℚ
  deriving DecidableEq

/-- An element matching `.parallax-circle-mouse`: the result of
`parseFloat(circle.getAttribute("data-speed"))` (`none` for `NaN`, a missing or
unparsable attribute) and the inline `style.transform` (`none` while unset). -/
structure Circle where
  dataSpeed : Option ℚ
  transform : Option Transform
  deriving DecidableEq

/-- The expression `parseFloat(...) || 0`: `NaN` and `0` are falsy and give `0`. -/
def speedOf (c : Circle) : ℚ :=
  match c.dataSpeed with
  | some v => if v = 0 then 0 else v
  | none => 0

/-- The body of the `forEach` callback of `handleParallax`. -/
def parallaxCircle (w : Viewport) (e : PointerPos) (circle : Circle) : Circle :=
  let speed := speedOf circle
  let x := (w.innerWidth / 2 - e.clientX) * speed
  let y := (w.innerHeight / 2 - e.clientY) * speed
  { circle with transform := some { x := x, y := y, rotate := x * 0.1 + y * 0.1 } }

/-- The function `handleParallax` on the list returned by
`document.querySelectorAll(".parallax-circle-mouse")`. -/
def handleParallax (w : Viewport) (e : PointerPos) (circles : List Circle) : List Circle :=
  circles.map (parallaxCircle w e)

/-- Events delivered to the hero `<section>`. -/
inductive HeroEvent where
  | mouseMove (e : PointerPos)
  | touchMove (touches : List PointerPos)
  | mouseLeave
  | touchEnd

/-- The event props of the hero `<section>`: `onMouseMove={handleParallax}` and
`onTouchMove={(e) => handleParallax(e.touches[0])}`. No other event has a
handler, so it leaves the circles as they are. With an empty `touches` the
argument is `undefined` and reading `e.clientX` for the first circle throws. -/
def heroHandle (w : Viewport) (ev : HeroEvent) (circles : List Circle) :
    Except String (List Circle) :=
  match ev with
  | .mouseMove e => .ok (handleParallax w e circles)
  | .touchMove touches =>
    match touches.head? with
    | some t => .ok (handleParallax w t circles)
    | none => if circles.isEmpty then .ok circles else .error "TypeError"
  | .mouseLeave => .ok circles
  | .touchEnd => .ok circles

/-- A sequence of events on the hero section, stopping at the first throw. -/
def heroRun (w : Viewport) (evs : List HeroEvent) (circles : List Circle) :
    Except String (List Circle) :=
  evs.foldlM (fun cs ev => heroHandle w ev cs) circles

/-- The translation a circle carries: that of its inline transform, zero while
no transform has been set. -/
def Circle.offset (c : Circle) : ℚ × ℚ :=
  match c.transform with
  | some t => (t.x, t.y)
  | none => (0, 0)

/-- The three decoration circles of the hero section (`data-speed` 0.025,
0.015 and 0.035) before any pointer event. -/
def heroCircles : List Circle :=
  [ { dataSpeed := some 0.025, transform := none },
    { dataSpeed := some 0.015, transform := none },
    { dataSpeed := some 0.035, transform := none } ]

/-! ## Display mode (App.jsx 193-209, 376-380) -/

/-- What the display-mode code reads and writes of the browser:
`localStorage` (`getItem` by key, `none` for `null`), the result of
`window.matchMedia("(prefers-color-scheme: dark)").matches` and the class list
of `document.documentElement`. -/
structure Browser where
  localStorage : String → Option String
  prefersDark : Bool
  rootClassList : List String

/-- The call `localStorage.setItem(key, value)`. -/
def setItem (storage : String → Option String) (key value : String) : String → Option String :=
  fun k => if k = key then some value else storage k

/-- The call `classList.add(token)`: no change when the token is there already. -/
def classListAdd (classes : List String) (token : String) : List String :=
  if token ∈ classes then classes else classes ++ [token]

/-- The call `classList.remove(token)`. -/
def classListRemove (classes : List String) (token : String) : List String :=
  classes.filter (fun c => c ≠ token)

/-- The call `darkMode.toString()` on a boolean. -/
def boolToString : Bool → String
  | true => "true"
  | false => "false"

/-- The initializer passed to `useState` for `darkMode`; `window` is `none`
where `typeof window === "undefined"`. -/
def initDarkMode (window : Option Browser) : Bool :=
  match window with
  | some w =>
    match w.localStorage "darkMode" with
    | some saved => decide (saved = "true")
    | none => w.prefersDark
  | none => false

/-- The effect that runs when `darkMode` has changed (and once on mount): it
sets or clears the class `dark` on the root element and stores the flag. -/
def darkModeEffect (darkMode : Bool) (w : Browser) : Browser :=
  { w with
    rootClassList :=
      if darkMode then classListAdd w.rootClassList "dark"
      else classListRemove w.rootClassList "dark"
    localStorage := setItem w.localStorage "darkMode" (boolToString darkMode) }

/-- The `darkMode` state cell together with the browser state it is mirrored to. -/
structure DisplayState where
  darkMode : Bool
  window : Browser

/-- Mounting `App` in a browser: the initializer, then the effect. -/
def mountDisplay (w : Browser) : DisplayState :=
  let darkMode := initDarkMode (some w)
  { darkMode := darkMode, window := darkModeEffect darkMode w }

/-- A click on the toggle, `setDarkMode((d) => !d)`, followed by the effect
for the changed flag. -/
def toggleDarkMode (st : DisplayState) : DisplayState :=
  let darkMode := !st.darkMode
  { darkMode := darkMode, window := darkModeEffect darkMode st.window }

/-- The state after mounting in `w` and `n` clicks on the toggle. -/
def afterToggles (w : Browser) (n : Nat) : DisplayState :=
  toggleDarkMode^[n] (mountDisplay w)

/-- A first visit: nothing stored, the system prefers dark, no class on the root. -/
def freshDarkSystem : Browser :=
  { localStorage := fun _ => none, prefersDark := true, rootClassList := [] }

/-- A browser whose stored value is the corrupt string `"yes"` while the system
prefers dark. -/
def corruptStored : Browser :=
  { localStorage := fun k => if k = "darkMode" then some "yes" else none
    prefersDark := true
    rootClassList := [] }

/-! ## Double-precision numbers

`MagneticButton` is modelled on IEEE 754 binary64 values with every operation
rounded to nearest, ties to even, so that the last bit of its results is the
one the program computes. A value is an integer times a power of two. The
exponent is not bounded: overflow to `Infinity` and gradual underflow are not
modelled, nor are `NaN` and the sign of zero. -/

/-- A finite double, `mant * 2 ^ expo`. A value produced by an operation has
`|mant| ≤ 2 ^ 53`. -/
structure JSDouble where
  mant : ℤ
  expo : ℤ
  deriving DecidableEq

/-- The number a double stands for. -/
def JSDouble.toRat (a : JSDouble) : ℚ :=
  a.mant * (2 : ℚ) ^ a.expo

/-- The loop behind `floorLog2`, on a bound for the number of halvings. -/
def log2Aux : ℕ → ℕ → ℕ
  | 0, _ => 0
  | fuel + 1, n => if n < 2 then 0 else log2Aux fuel (n / 2) + 1

/-- The position of the leading bit of `n`, for `n ≠ 0`. -/
def floorLog2 (n : ℕ) : ℕ :=
  log2Aux n n

/-- Rounding of a natural number to 53 significant bits, to nearest and ties to
even: the pair `(q, k)` stands for `q * 2 ^ k`. -/
def roundNat (n : ℕ) : ℕ × ℕ :=
  if n < 2 ^ 53 then (n, 0)
  else
    let k := floorLog2 n - 52
    let q := n / 2 ^ k
    let r := n % 2 ^ k
    let half := 2 ^ (k - 1)
    (if half < r ∨ (r = half ∧ q % 2 = 1) then q + 1 else q, k)

/-- The double nearest to `mant * 2 ^ expo`. -/
def roundNearestEven (mant expo : ℤ) : JSDouble :=
  let p := roundNat mant.natAbs
  ⟨mant.sign * p.1, expo + p.2⟩

/-- JavaScript `a + b` on doubles: the exact sum, rounded. -/
def JSDouble.add (a b : JSDouble) : JSDouble :=
  let e := min a.expo b.expo
  roundNearestEven (a.mant * 2 ^ (a.expo - e).toNat + b.mant * 2 ^ (b.expo - e).toNat) e

/-- JavaScript `a - b` on doubles: the exact difference, rounded. -/
def JSDouble.sub (a b : JSDouble) : JSDouble :=
  let e := min a.expo b.expo
  roundNearestEven (a.mant * 2 ^ (a.expo - e).toNat - b.mant * 2 ^ (b.expo - e).toNat) e

/-- JavaScript `a * b` on doubles: the exact product, rounded. -/
def JSDouble.mul (a b : JSDouble) : JSDouble :=
  roundNearestEven (a.mant * b.mant) (a.expo + b.expo)

/-- JavaScript `a / 2` on doubles, which is exact. -/
def JSDouble.half (a : JSDouble) : JSDouble :=
  ⟨a.mant, a.expo - 1⟩

/-- The double a decimal literal `digits / 10 ^ scale` denotes (`0.15` is
`ofDecimal 15 2`): the quotient is taken to more than 56 bits, with a last bit
recording a non-zero remainder, and rounded. -/
def JSDouble.ofDecimal (digits scale : ℕ) : JSDouble :=
  let d := 10 ^ scale
  let s := 56 + floorLog2 d
  let q := digits * 2 ^ s / d
  let sticky := if digits * 2 ^ s % d = 0 then 0 else 1
  roundNearestEven ((2 * q + sticky : ℕ) : ℤ) (-(s : ℤ) - 1)

/-! ## Magnetic button (App.jsx 155-172) -/

/-- What `handleMouseMove` reads of `ref.current.getBoundingClientRect()`. -/
structure DOMRect where
  width : JSDouble
  height : JSDouble
  left : JSDouble
  top : JSDouble

/-- What `handleMouseMove` reads of the mouse event. -/
structure MouseEvent where
  clientX : JSDouble
  clientY : JSDouble

/-- The `position` state of a `MagneticButton`. -/
structure Position where
  x : JSDouble
  y : JSDouble
  deriving DecidableEq

/-- The handler `handleMouseMove` of `MagneticButton`: the value passed to
`setPosition`. -/
def MagneticButton.handleMouseMove (rect : DOMRect) (e : MouseEvent) : Position :=
  let x := e.clientX.sub (rect.left.add rect.width.half)
  let y := e.clientY.sub (rect.top.add rect.height.half)
  { x := x.mul (JSDouble.ofDecimal 15 2), y := y.mul (JSDouble.ofDecimal 15 2) }

/-- The handler `handleMouseLeave` of `MagneticButton`: the value passed to
`setPosition`, whatever the position was. -/
def MagneticButton.handleMouseLeave (_previous : Position) : Position :=
  { x := ⟨0, 0⟩, y := ⟨0, 0⟩ }

/-- A button box with `left = 162.9`, `width = 138.1`, `top = 40` and
`height = 60`. -/
def edgeBox : DOMRect :=
  { width := JSDouble.ofDecimal 1381 1
    height := JSDouble.ofDecimal 60 0
    left := JSDouble.ofDecimal 1629 1
    top := JSDouble.ofDecimal 40 0 }

/-- A pointer on the right edge of `edgeBox`, at `(301, 70)`. -/
def edgePointer : MouseEvent :=
  { clientX := JSDouble.ofDecimal 301 0, clientY := JSDouble.ofDecimal 70 0 }

/-! ## Entrance reveal (App.jsx 252-263, 574-578) -/

/-- The four sections whose children are revealed on entering the viewport:
`featuresRef`, `howRef`, `testRef` and `faqRef`. -/
inductive AnimatedSection where
  | features
  | howItWorks
  | testimonials
  | faq
  deriving DecidableEq

/-- Modelled from the spec: the hook `useInView(ref, { once: true, margin })`
of the animation library, whose code is not under src/. The flag it returns is
a latch: an observation of the bound element intersecting the viewport sets
it, and once it is set observations are ignored. `inView` is the flag before
the observation, `isIntersecting` what is observed. -/
def useInViewOnce (inView isIntersecting : Bool) : Bool :=
  if inView then true else isIntersecting

/-- The flags `featuresInView`, `howInView`, `testInView` and `faqInView`. -/
def RevealFlags : Type := AnimatedSection → Bool

/-- The flags at mount: every hook instance starts at `false`. -/
def revealInitial : RevealFlags := fun _ => false

/-- An intersection observation delivered to the hook instance of one section. -/
structure Observation where
  target : AnimatedSection
  isIntersecting : Bool

/-- One observation: only the hook instance of the observed section reacts. -/
def revealStep (flags : RevealFlags) (ob : Observation) : RevealFlags :=
  fun k => if k = ob.target then useInViewOnce (flags k) ob.isIntersecting else flags k

/-- A sequence of observations, oldest first. -/
def revealRun (flags : RevealFlags) (obs : List Observation) : RevealFlags :=
  obs.foldl revealStep flags

/-- The prop `animate={inView ? "visible" : "hidden"}` of the stagger containers. -/
def animateVariant (inView : Bool) : String :=
  if inView then "visible" else "hidden"

/-- How many times the flag of `sec` goes from `false` to `true` along a
sequence of observations. -/
def revealTransitions (sec : AnimatedSection) (flags : RevealFlags) : List Observation → Nat
  | [] => 0
  | ob :: obs =>
    (if flags sec = false ∧ revealStep flags ob sec = true then 1 else 0)
      + revealTransitions sec (revealStep flags ob) obs

/-! ## Scroll-linked transforms (App.jsx 265-278) -/

/-- Modelled from the spec: `useTransform(value, [in0, in1], [out0, out1])` of
the animation library, whose code is not under src/, taken as the clamped
linear interpolation of the input range onto the output range (`in0 < in1`). -/
def useTransform (value : ℚ) (input output : ℚ × ℚ) : ℚ :=
  if value ≤ input.1 then output.1
  else if input.2 ≤ value then output.2
  else output.1 + (output.2 - output.1) * ((value - input.1) / (input.2 - input.1))

/-- The binding `parallaxOpacity1`. -/
def parallaxOpacity1 (scrollYProgress : ℚ) : ℚ :=
  useTransform scrollYProgress (0, 0.5) (1, 0.3)

/-- The binding `parallaxY1`, in percent. -/
def parallaxY1 (scrollYProgress : ℚ) : ℚ :=
  useTransform scrollYProgress (0, 1) (0, 50)

/-- The binding `parallaxRotate1`, in degrees. -/
def parallaxRotate1 (scrollYProgress : ℚ) : ℚ :=
  useTransform scrollYProgress (0, 1) (0, 180)

/-- The binding `parallaxOpacity2`. -/
def parallaxOpacity2 (scrollYProgress : ℚ) : ℚ :=
  useTransform scrollYProgress (0.2, 0.7) (1, 0.4)

/-- The binding `parallaxY2`, in percent. -/
def parallaxY2 (scrollYProgress : ℚ) : ℚ :=
  useTransform scrollYProgress (0, 1) (0, -50)

/-- The binding `parallaxRotate2`, in degrees. -/
def parallaxRotate2 (scrollYProgress : ℚ) : ℚ :=
  useTransform scrollYProgress (0, 1) (0, -180)

/-! ## Lemmas on the section scan -/

theorem scanStep_eq_ite (d : Dom) (s : ℚ) (current : String) (sec : SectionDescriptor) :
    scanStep d s current sec = if scrolledPast d s sec then sec.id else current := by
  unfold scanStep scrolledPast
  cases d.getElementById sec.id <;> simp

/-- The loop from any starting value: the id of the last scrolled-past
section, or the starting value when there is none. -/
theorem foldl_scanStep (d : Dom) (s : ℚ) (secs : List SectionDescriptor) (init : String) :
    secs.foldl (scanStep d s) init =
      match (secs.filter (scrolledPast d s)).getLast? with
      | some sec => sec.id
      | none => init := by
  induction secs using List.reverseRecOn with
  | nil => simp
  | append_singleton l a ih =>
    rw [List.foldl_append, List.filter_append]
    by_cases h : scrolledPast d s a = true
    · simp [scanStep_eq_ite, h, List.filter_cons]
    · simp [scanStep_eq_ite, h, List.filter_cons, ih]

/-- The sections after the first never carry the id `"hero"`. -/
theorem tail_ids_ne_hero (sec : SectionDescriptor) (h : sec ∈ sections.tail) :
    sec.id ≠ "hero" := by
  simp [sections] at h
  rcases h with h | h | h | h | h <;> subst h <;> decide

/-- The loop of `onScroll` in terms of the sections after `"hero"`: the hero
iteration leaves `current` at `"hero"` whether or not it assigns. -/
theorem detectActive_tail (d : Dom) (s : ℚ) :
    detectActive sections d s =
      match (sections.tail.filter (scrolledPast d s)).getLast? with
      | some sec => sec.id
      | none => "hero" := by
  have h : detectActive sections d s
      = sections.tail.foldl (scanStep d s) (scanStep d s "hero" ⟨"hero", "Home"⟩) := rfl
  rw [h, foldl_scanStep, scanStep_eq_ite]
  simp

/-- The reported section is the starting value or a declared section that is
anchored and scrolled past. -/
theorem detectActive_cases (d : Dom) (s : ℚ) :
    detectActive sections d s = "hero" ∨
      ∃ sec ∈ sections, scrolledPast d s sec = true ∧ detectActive sections d s = sec.id := by
  unfold detectActive
  rw [foldl_scanStep]
  cases hl : (sections.filter (scrolledPast d s)).getLast? with
  | none => exact Or.inl rfl
  | some sec =>
    have hm := List.mem_of_getLast?_eq_some hl
    rw [List.mem_filter] at hm
    exact Or.inr ⟨sec, hm.1, hm.2, rfl⟩

/-! ## Active section: claims -/

/-- C1. For every document and scroll position the `activeSection` set by the
scroll handler is the id of the last section in declared order whose anchor is
present and satisfies `s ≥ offsetTop - 150`, and `"hero"`, the first declared
section, when no section does. -/
theorem C1_active_is_last_scrolled_past (d : Dom) :
    (onScroll d).activeSection = specActiveSection sections d ∧
      (sections.head?).map (·.id) = some "hero" := by
  refine ⟨?_, rfl⟩
  show detectActive sections d d.scrollY = specActiveSection sections d
  unfold detectActive specActiveSection
  exact foldl_scanStep d d.scrollY sections "hero"

/-- C2 (as the code behaves). With anchors at 0, 800 and 1600 the handler
reports the second section, `"features"` (index 1), at `s = 700` and at
`s = 680`, both being at least `800 - 150 = 650`; the first section is reported
just below the threshold, at `s = 649`. -/
theorem C2_second_section_at_700_and_680 (H V : ℚ) :
    (onScroll (threeAnchors 700 H V)).activeSection = "features" ∧
      (onScroll (threeAnchors 680 H V)).activeSection = "features" ∧
      sectionIndex "features" = 1 ∧
      (onScroll (threeAnchors 649 H V)).activeSection = "hero" ∧
      sectionIndex "hero" = 0 := by
  refine ⟨?_, ?_, by decide, ?_, by decide⟩ <;>
    simp [onScroll, detectActive, sections, scanStep, threeAnchors] <;> norm_num

/-- C2 fails as stated: at `s = 700` (and at `s = 680`) the section reported is
not the first one. -/
theorem C2_counterexample :
    sectionIndex (onScroll (threeAnchors 700 3000 600)).activeSection ≠ 0 ∧
      sectionIndex (onScroll (threeAnchors 680 3000 600)).activeSection ≠ 0 := by
  have h1 : (onScroll (threeAnchors 700 3000 600)).activeSection = "features" := by
    simp [onScroll, detectActive, sections, scanStep, threeAnchors]; norm_num
  have h2 : (onScroll (threeAnchors 680 3000 600)).activeSection = "features" := by
    simp [onScroll, detectActive, sections, scanStep, threeAnchors]; norm_num
  rw [h1, h2]
  decide

/-- C3. With anchors at 0, 800 and 1600 the handler reports the second
section (index 1) at `s = 651`, and `651 ≥ 800 - 150`. -/
theorem C3_second_section_at_651 (H V : ℚ) :
    (onScroll (threeAnchors 651 H V)).activeSection = "features" ∧
      sectionIndex "features" = 1 ∧ (651 : ℚ) ≥ 800 - 150 := by
  refine ⟨?_, by decide, by norm_num⟩
  simp [onScroll, detectActive, sections, scanStep, threeAnchors]; norm_num

/-- C4. For every document (anchors present or missing) and scroll position
the `activeSection` set by the scroll handler is the id of a declared section. -/
theorem C4_active_is_declared (d : Dom) :
    (onScroll d).activeSection ∈ sections.map (·.id) := by
  show detectActive sections d d.scrollY ∈ sections.map (·.id)
  rcases detectActive_cases d d.scrollY with h | ⟨sec, hm, _, h⟩
  · rw [h]; decide
  · rw [h]; exact List.mem_map_of_mem _ hm

/-- C5 (as the code behaves). At scroll position 0 the handler reports
`"hero"` exactly when every anchored section other than `"hero"` has its top
more than 150px down the page. -/
theorem C5_hero_at_top_iff (d : Dom) :
    (onScroll { d with scrollY := 0 }).activeSection = "hero" ↔
      ∀ sec ∈ sections, sec.id ≠ "hero" →
        ∀ el, d.getElementById sec.id = some el → 150 < el.offsetTop := by
  show detectActive sections { d with scrollY := 0 } 0 = "hero" ↔ _
  rw [detectActive_tail]
  constructor
  · intro h sec hm hne el hel
    by_contra hlt
    have hp : scrolledPast { d with scrollY := 0 } 0 sec = true := by
      simp only [scrolledPast, hel]
      simp only [decide_eq_true_eq]
      linarith [not_lt.mp hlt]
    have hmt : sec ∈ sections.tail := by
      simp [sections] at hm ⊢
      rcases hm with hm | hm
      · exact absurd (by rw [hm]) hne
      · exact hm
    have hf : sec ∈ sections.tail.filter (scrolledPast { d with scrollY := 0 } 0) :=
      List.mem_filter.mpr ⟨hmt, hp⟩
    cases hl : (sections.tail.filter (scrolledPast { d with scrollY := 0 } 0)).getLast? with
    | none =>
      rw [List.getLast?_eq_none_iff] at hl
      rw [hl] at hf
      exact absurd hf (List.not_mem_nil _)
    | some last =>
      rw [hl] at h
      have hlm := List.mem_of_getLast?_eq_some hl
      exact tail_ids_ne_hero last (List.mem_filter.mp hlm).1 h
  · intro h
    cases hl : (sections.tail.filter (scrolledPast { d with scrollY := 0 } 0)).getLast? with
    | none => rfl
    | some last =>
      exfalso
      have hlm := List.mem_filter.mp (List.mem_of_getLast?_eq_some hl)
      have hne := tail_ids_ne_hero last hlm.1
      have hp := hlm.2
      unfold scrolledPast at hp
      cases hel : ({ d with scrollY := 0 } : Dom).getElementById last.id with
      | none => rw [hel] at hp; simp at hp
      | some el =>
        rw [hel] at hp
        simp only [decide_eq_true_eq] at hp
        have := h last (List.mem_of_mem_tail hlm.1) hne el hel
        linarith

/-- C5 fails as stated: with the features anchor 100px from the top the
handler reports `"features"`, not `"hero"`, at scroll position 0. -/
theorem C5_counterexample :
    (shortHero 0).scrollY = 0 ∧ (onScroll (shortHero 0)).activeSection = "features" ∧
      (onScroll (shortHero 0)).activeSection ≠ "hero" := by
  have h : (onScroll (shortHero 0)).activeSection = "features" := by
    simp [onScroll, detectActive, sections, scanStep, shortHero]; norm_num
  refine ⟨rfl, h, ?_⟩
  rw [h]; decide

/-- C8 (as the code behaves). A section id other than `"hero"` whose anchor
is not in the document is never reported as the active section, wherever the
other anchors are and whatever the scroll position. -/
theorem C8_missing_anchor_not_active (d : Dom) (id : String)
    (hid : id ≠ "hero") (hmissing : d.getElementById id = none) :
    (onScroll d).activeSection ≠ id := by
  show detectActive sections d d.scrollY ≠ id
  rcases detectActive_cases d d.scrollY with h | ⟨sec, _, hp, h⟩
  · rw [h]; exact fun e => hid e.symm
  · intro e
    rw [h] at e
    rw [scrolledPast, e, hmissing] at hp
    exact Bool.false_ne_true hp

theorem C8_missing_anchor_not_active_witness :
    (threeAnchors 2000 3000 600).getElementById "cta" = none ∧
      (onScroll (threeAnchors 2000 3000 600)).activeSection ≠ "cta" :=
  ⟨by simp [threeAnchors],
   C8_missing_anchor_not_active (threeAnchors 2000 3000 600) "cta" (by decide)
     (by simp [threeAnchors])⟩

/-- C8 fails as stated for the first section: with no anchor in the document
at all, `"hero"` is a declared section whose anchor is missing and it is the
section reported. -/
theorem C8_counterexample :
    "hero" ∈ sections.map (·.id) ∧ (noAnchors 0 3000 600).getElementById "hero" = none ∧
      (onScroll (noAnchors 0 3000 600)).activeSection = "hero" := by
  refine ⟨by decide, rfl, ?_⟩
  simp [onScroll, detectActive, sections, scanStep, noAnchors]

/-! ## Scroll progress: claims -/

theorem progressPercent_of_ne_zero (s m : ℚ) (hm : m ≠ 0) :
    progressPercent s m = .finite (s / m * 100) := by
  simp [progressPercent, JSNum.div, JSNum.mul, hm]

/-- C6. Whenever `maxScroll = scrollHeight - innerHeight` is positive, the
progress set by the scroll handler at positions `0 ≤ s1 ≤ s2 ≤ maxScroll` is
the finite number `(s / maxScroll) * 100`, lies in `[0, 100]` at both and is no
smaller at `s2` than at `s1`. -/
theorem C6_progress_bounded_monotone (d : Dom) (s1 s2 : ℚ)
    (hmax : 0 < d.scrollHeight - d.innerHeight)
    (h0 : 0 ≤ s1) (h12 : s1 ≤ s2) (hle : s2 ≤ d.scrollHeight - d.innerHeight) :
    ∃ p1 p2 : ℚ,
      (onScroll { d with scrollY := s1 }).scrollProgress = .finite p1 ∧
      (onScroll { d with scrollY := s2 }).scrollProgress = .finite p2 ∧
      p1 = s1 / (d.scrollHeight - d.innerHeight) * 100 ∧
      p2 = s2 / (d.scrollHeight - d.innerHeight) * 100 ∧
      0 ≤ p1 ∧ p1 ≤ p2 ∧ p2 ≤ 100 := by
  refine ⟨_, _, progressPercent_of_ne_zero s1 _ hmax.ne', progressPercent_of_ne_zero s2 _ hmax.ne',
    rfl, rfl, ?_, ?_, ?_⟩
  · have := div_nonneg h0 hmax.le
    linarith
  · have := div_le_div_of_nonneg_right h12 hmax.le
    linarith
  · have := (div_le_one hmax).mpr hle
    linarith

theorem C6_progress_bounded_monotone_witness :
    ∃ p1 p2 : ℚ,
      (onScroll { threeAnchors 0 3000 600 with scrollY := 600 }).scrollProgress = .finite p1 ∧
      (onScroll { threeAnchors 0 3000 600 with scrollY := 1800 }).scrollProgress = .finite p2 ∧
      p1 = 600 / ((threeAnchors 0 3000 600).scrollHeight - (threeAnchors 0 3000 600).innerHeight) * 100 ∧
      p2 = 1800 / ((threeAnchors 0 3000 600).scrollHeight - (threeAnchors 0 3000 600).innerHeight) * 100 ∧
      0 ≤ p1 ∧ p1 ≤ p2 ∧ p2 ≤ 100 :=
  C6_progress_bounded_monotone (threeAnchors 0 3000 600) 600 1800
    (by norm_num [threeAnchors]) (by norm_num) (by norm_num) (by norm_num [threeAnchors])

/-- C7 (what the code does). When the document is exactly as tall as the
viewport the handler divides by zero unguarded: at scroll position 0 the
progress it sets is `NaN`, neither 0 nor 100. -/
theorem C7_zero_height_progress_is_nan (h : ℚ) (anchors : String → Option Element) :
    (onScroll ⟨0, h, h, anchors⟩).scrollProgress = JSNum.nan ∧
      (onScroll fitsViewport).scrollProgress = JSNum.nan ∧
      (onScroll fitsViewport).scrollProgress ≠ JSNum.finite 0 ∧
      (onScroll fitsViewport).scrollProgress ≠ JSNum.finite 100 := by
  have h1 : (onScroll ⟨0, h, h, anchors⟩).scrollProgress = JSNum.nan := by
    simp [onScroll, progressPercent, JSNum.div, JSNum.mul]
  have h2 : (onScroll fitsViewport).scrollProgress = JSNum.nan := by
    simp [onScroll, fitsViewport, progressPercent, JSNum.div, JSNum.mul]
  refine ⟨h1, h2, ?_, ?_⟩ <;> rw [h2] <;> exact fun e => JSNum.noConfusion e

/-! ## Pointer parallax: claims -/

theorem speedOf_of_dataSpeed (circle : Circle) (c : ℚ) (h : circle.dataSpeed = some c) :
    speedOf circle = c := by
  unfold speedOf
  rw [h]
  by_cases hc : c = 0 <;> simp [hc]

/-- C9. For every viewport, pointer position and tracked element with
parallax coefficient `c`, `handleParallax` sets the element's translation to
`x = (innerWidth/2 - clientX) * c`, `y = (innerHeight/2 - clientY) * c` and its
rotation to `0.1*x + 0.1*y`, leaving the list of elements otherwise as it was;
and a pointer at the exact centre of the viewport gives every tracked element
zero translation and zero rotation. -/
theorem C9_parallax_transform (w : Viewport) (e : PointerPos) (circles : List Circle)
    (i : Nat) (circle : Circle) (c : ℚ)
    (hget : circles[i]? = some circle) (hspeed : circle.dataSpeed = some c) :
    (handleParallax w e circles)[i]? =
        some { circle with
          transform := some
            { x := (w.innerWidth / 2 - e.clientX) * c
              y := (w.innerHeight / 2 - e.clientY) * c
              rotate := 0.1 * ((w.innerWidth / 2 - e.clientX) * c)
                + 0.1 * ((w.innerHeight / 2 - e.clientY) * c) } } ∧
      (handleParallax w e circles).length = circles.length ∧
      handleParallax w ⟨w.innerWidth / 2, w.innerHeight / 2⟩ circles =
        circles.map (fun k => { k with transform := some ⟨0, 0, 0⟩ }) := by
  refine ⟨?_, ?_, ?_⟩
  · simp only [handleParallax, List.getElem?_map, hget, Option.map_some']
    simp only [parallaxCircle, speedOf_of_dataSpeed circle c hspeed]
    have hr : ∀ x y : ℚ, x * 0.1 + y * 0.1 = 0.1 * x + 0.1 * y := fun x y => by ring
    rw [hr]
  · simp [handleParallax]
  · simp [handleParallax, parallaxCircle]

theorem C9_parallax_transform_witness :
    (handleParallax ⟨1000, 800⟩ ⟨0, 0⟩ heroCircles)[0]? =
        some { ({ dataSpeed := some 0.025, transform := none } : Circle) with
          transform := some
            { x := ((1000 : ℚ) / 2 - 0) * 0.025
              y := ((800 : ℚ) / 2 - 0) * 0.025
              rotate := 0.1 * (((1000 : ℚ) / 2 - 0) * 0.025)
                + 0.1 * (((800 : ℚ) / 2 - 0) * 0.025) } } ∧
      (handleParallax ⟨1000, 800⟩ ⟨0, 0⟩ heroCircles).length = heroCircles.length ∧
      handleParallax ⟨1000, 800⟩ ⟨(1000 : ℚ) / 2, (800 : ℚ) / 2⟩ heroCircles =
        heroCircles.map (fun k => { k with transform := some ⟨0, 0, 0⟩ }) :=
  C9_parallax_transform ⟨1000, 800⟩ ⟨0, 0⟩ heroCircles 0 ⟨some 0.025, none⟩ 0.025 rfl rfl

/-- C10 (as the code behaves). The hero section registers no pointer-leave
handler: a leave event (mouse leave or touch end) keeps every tracked element
exactly as it was, so after a pointer move followed by a leave the elements
still carry the transforms that move set. -/
theorem C10_leave_keeps_transforms (w : Viewport) (e : PointerPos) (circles : List Circle) :
    heroHandle w .mouseLeave circles = .ok circles ∧
      heroHandle w .touchEnd circles = .ok circles ∧
      heroRun w [.mouseMove e, .mouseLeave] circles = .ok (handleParallax w e circles) := by
  refine ⟨rfl, rfl, rfl⟩

/-- C10 fails as stated: in a 1000x800 viewport a pointer move to the top-left
corner followed by a leave event keeps the first circle at the offset
(12.5, 10), not at (0, 0). -/
theorem C10_counterexample :
    heroRun ⟨1000, 800⟩ [.mouseMove ⟨0, 0⟩, .mouseLeave] heroCircles =
        .ok [ ⟨some 0.025, some ⟨12.5, 10, 2.25⟩⟩,
              ⟨some 0.015, some ⟨7.5, 6, 1.35⟩⟩,
              ⟨some 0.035, some ⟨17.5, 14, 3.15⟩⟩ ] ∧
      Circle.offset ⟨some 0.025, some ⟨12.5, 10, 2.25⟩⟩ ≠ (0, 0) := by
  constructor
  · have h : heroRun ⟨1000, 800⟩ [.mouseMove ⟨0, 0⟩, .mouseLeave] heroCircles
        = .ok (handleParallax ⟨1000, 800⟩ ⟨0, 0⟩ heroCircles) := rfl
    rw [h]
    simp only [handleParallax, heroCircles, List.map, parallaxCircle, speedOf]
    norm_num
  · simp only [Circle.offset]
    norm_num

/-! ## Display mode: claims -/

theorem boolToString_eq_true_iff (b : Bool) : boolToString b = "true" ↔ b = true := by
  cases b <;> simp [boolToString]

/-- After the effect has run for a flag, the value stored under `"darkMode"`
is the flag's string and the root carries `dark` exactly when the flag is set. -/
theorem darkModeEffect_mirrors (b : Bool) (w : Browser) :
    (darkModeEffect b w).localStorage "darkMode" = some (boolToString b) ∧
      ("dark" ∈ (darkModeEffect b w).rootClassList ↔ b = true) := by
  constructor
  · simp [darkModeEffect, setItem]
  · cases b
    · simp [darkModeEffect, classListRemove]
    · by_cases h : "dark" ∈ w.rootClassList <;> simp [darkModeEffect, classListAdd, h]

/-- Every state reached by mounting and toggling mirrors its flag. -/
theorem afterToggles_mirrors (w : Browser) (n : Nat) :
    (afterToggles w n).window.localStorage "darkMode"
        = some (boolToString (afterToggles w n).darkMode) ∧
      ("dark" ∈ (afterToggles w n).window.rootClassList ↔ (afterToggles w n).darkMode = true) := by
  cases n with
  | zero => exact darkModeEffect_mirrors _ w
  | succ k =>
    have h : afterToggles w (k + 1) = toggleDarkMode (afterToggles w k) := by
      simp only [afterToggles, Function.iterate_succ_apply']
    rw [h]
    exact darkModeEffect_mirrors _ _

/-- C11. In a browser, when a value is stored under `"darkMode"` the initial
display mode is dark exactly when that string is `"true"`, whatever the system
preference; when nothing is stored it is the system prefers-dark signal. -/
theorem C11_initial_mode (w : Browser) (saved : String) (other : Bool)
    (hsaved : w.localStorage "darkMode" = some saved) (fresh : Browser)
    (hfresh : fresh.localStorage "darkMode" = none) :
    (initDarkMode (some w) = true ↔ saved = "true") ∧
      initDarkMode (some { w with prefersDark := other }) = initDarkMode (some w) ∧
      initDarkMode (some fresh) = fresh.prefersDark := by
  refine ⟨?_, ?_, ?_⟩
  · simp [initDarkMode, hsaved]
  · simp [initDarkMode, hsaved]
  · simp [initDarkMode, hfresh]

theorem C11_initial_mode_witness :
    (initDarkMode (some (darkModeEffect true freshDarkSystem)) = true ↔ "true" = "true") ∧
      initDarkMode (some { darkModeEffect true freshDarkSystem with prefersDark := false })
        = initDarkMode (some (darkModeEffect true freshDarkSystem)) ∧
      initDarkMode (some freshDarkSystem) = freshDarkSystem.prefersDark :=
  C11_initial_mode (darkModeEffect true freshDarkSystem) "true" false
    (by simp [darkModeEffect, setItem, boolToString]) freshDarkSystem rfl

/-- C12 (as the code behaves). A stored string other than `"true"`, so every
corrupt one, makes the initial display mode light, whatever the system
preference: the initializer consults the system signal only when nothing is
stored. -/
theorem C12_corrupt_value_is_light (w : Browser) (saved : String)
    (hsaved : w.localStorage "darkMode" = some saved) (hcorrupt : saved ≠ "true") :
    initDarkMode (some w) = false := by
  simp [initDarkMode, hsaved, hcorrupt]

theorem C12_corrupt_value_is_light_witness :
    corruptStored.localStorage "darkMode" = some "yes" ∧ "yes" ≠ "true" ∧
      initDarkMode (some corruptStored) = false :=
  ⟨by simp [corruptStored], by decide,
   C12_corrupt_value_is_light corruptStored "yes" (by simp [corruptStored]) (by decide)⟩

/-- C12 fails as stated: with the corrupt string `"yes"` stored and a system
that prefers dark, the initial mode is light, not the system preference. -/
theorem C12_counterexample :
    corruptStored.localStorage "darkMode" = some "yes" ∧ "yes" ≠ "true" ∧ "yes" ≠ "false" ∧
      corruptStored.prefersDark = true ∧
      initDarkMode (some corruptStored) ≠ corruptStored.prefersDark := by
  refine ⟨by simp [corruptStored], by decide, by decide, rfl, ?_⟩
  simp [initDarkMode, corruptStored]

/-- C13. From any state reached by mounting and any number of toggles, two
further toggles (each followed by its effect) bring the display-mode flag, the
value stored under `"darkMode"` and the presence of the class `dark` on the
root element back to what they were; a single toggle does change the flag. -/
theorem C13_double_toggle_restores (w : Browser) (n : Nat) :
    (toggleDarkMode (toggleDarkMode (afterToggles w n))).darkMode = (afterToggles w n).darkMode ∧
      (toggleDarkMode (toggleDarkMode (afterToggles w n))).window.localStorage "darkMode"
        = (afterToggles w n).window.localStorage "darkMode" ∧
      ("dark" ∈ (toggleDarkMode (toggleDarkMode (afterToggles w n))).window.rootClassList
        ↔ "dark" ∈ (afterToggles w n).window.rootClassList) ∧
      (toggleDarkMode (afterToggles w n)).darkMode ≠ (afterToggles w n).darkMode := by
  have hflag : (toggleDarkMode (toggleDarkMode (afterToggles w n))).darkMode
      = (afterToggles w n).darkMode := by
    simp [toggleDarkMode]
  have hnow := afterToggles_mirrors w n
  have hthen := darkModeEffect_mirrors (!(toggleDarkMode (afterToggles w n)).darkMode)
    (toggleDarkMode (afterToggles w n)).window
  have hw : (toggleDarkMode (toggleDarkMode (afterToggles w n))).window
      = darkModeEffect (!(toggleDarkMode (afterToggles w n)).darkMode)
          (toggleDarkMode (afterToggles w n)).window := rfl
  have hb : (!(toggleDarkMode (afterToggles w n)).darkMode) = (afterToggles w n).darkMode := by
    simp [toggleDarkMode]
  rw [hb] at hthen hw
  refine ⟨hflag, ?_, ?_, ?_⟩
  · rw [hw, hthen.1, hnow.1]
  · rw [hw, hthen.2, hnow.2]
  · simp [toggleDarkMode]

/-- C14. After the mount effect and after every later toggle the value stored
under `"darkMode"` is `"true"` or `"false"` according to the current display
mode and the root element carries the class `dark` exactly when the mode is
dark; a session with nothing stored and a system that prefers dark starts dark
and has `"true"` stored by the mount effect, before any toggle. -/
theorem C14_storage_and_class_mirror_mode (w : Browser) (n : Nat) (fresh : Browser)
    (hnone : fresh.localStorage "darkMode" = none) (hdark : fresh.prefersDark = true) :
    (afterToggles w n).window.localStorage "darkMode"
        = some (boolToString (afterToggles w n).darkMode) ∧
      ("dark" ∈ (afterToggles w n).window.rootClassList ↔ (afterToggles w n).darkMode = true) ∧
      (afterToggles fresh 0).darkMode = true ∧
      (afterToggles fresh 0).window.localStorage "darkMode" = some "true" ∧
      "dark" ∈ (afterToggles fresh 0).window.rootClassList := by
  have hinit : (afterToggles fresh 0).darkMode = true := by
    show initDarkMode (some fresh) = true
    simp [initDarkMode, hnone, hdark]
  have hm := afterToggles_mirrors fresh 0
  rw [hinit] at hm
  exact ⟨(afterToggles_mirrors w n).1, (afterToggles_mirrors w n).2, hinit, hm.1, hm.2.mpr rfl⟩

theorem C14_storage_and_class_mirror_mode_witness :
    (afterToggles corruptStored 3).window.localStorage "darkMode"
        = some (boolToString (afterToggles corruptStored 3).darkMode) ∧
      ("dark" ∈ (afterToggles corruptStored 3).window.rootClassList
        ↔ (afterToggles corruptStored 3).darkMode = true) ∧
      (afterToggles freshDarkSystem 0).darkMode = true ∧
      (afterToggles freshDarkSystem 0).window.localStorage "darkMode" = some "true" ∧
      "dark" ∈ (afterToggles freshDarkSystem 0).window.rootClassList :=
  C14_storage_and_class_mirror_mode corruptStored 3 freshDarkSystem rfl rfl

/-- C19. Storing a display mode and loading it again gives the mode back: if
the value under `"darkMode"` is the string the effect writes for `b`, the
initializer returns `b`, whatever the system preference; so the initializer
run on a browser the effect has just written to returns the flag written. -/
theorem C19_store_then_load (b : Bool) (w : Browser)
    (hstored : w.localStorage "darkMode" = some (boolToString b)) (before : Browser) :
    initDarkMode (some w) = b ∧ initDarkMode (some (darkModeEffect b before)) = b := by
  have key : ∀ v : Browser, v.localStorage "darkMode" = some (boolToString b) →
      initDarkMode (some v) = b := by
    intro v hv
    cases b <;> simp [initDarkMode, hv, boolToString]
  exact ⟨key w hstored, key _ (darkModeEffect_mirrors b before).1⟩

theorem C19_store_then_load_witness :
    initDarkMode (some (darkModeEffect false freshDarkSystem)) = false ∧
      initDarkMode (some (darkModeEffect false corruptStored)) = false :=
  C19_store_then_load false (darkModeEffect false freshDarkSystem)
    (by simp [darkModeEffect, setItem]) corruptStored

/-! ## Magnetic button and touch input: claims -/

/-- C16. A touch-move event on the hero section that carries at least one
touch point sets on every tracked element exactly what a mouse move at the
first touch point sets; replacing the other touch points by any others changes
nothing. -/
theorem C16_touch_uses_first_point (w : Viewport) (touches others : List PointerPos)
    (circles : List Circle) (h : touches ≠ []) :
    heroHandle w (.touchMove touches) circles
        = heroHandle w (.mouseMove (touches.head h)) circles ∧
      heroHandle w (.touchMove touches) circles
        = .ok (handleParallax w (touches.head h) circles) ∧
      heroHandle w (.touchMove (touches.head h :: others)) circles
        = heroHandle w (.touchMove touches) circles := by
  cases touches with
  | nil => exact absurd rfl h
  | cons t rest => exact ⟨rfl, rfl, rfl⟩

theorem C16_touch_uses_first_point_witness :
    heroHandle ⟨1000, 800⟩ (.touchMove [⟨0, 0⟩, ⟨900, 700⟩]) heroCircles
        = heroHandle ⟨1000, 800⟩ (.mouseMove ⟨0, 0⟩) heroCircles ∧
      heroHandle ⟨1000, 800⟩ (.touchMove [⟨0, 0⟩, ⟨900, 700⟩]) heroCircles
        = .ok (handleParallax ⟨1000, 800⟩ ⟨0, 0⟩ heroCircles) ∧
      heroHandle ⟨1000, 800⟩ (.touchMove [⟨0, 0⟩, ⟨5, 5⟩]) heroCircles
        = heroHandle ⟨1000, 800⟩ (.touchMove [⟨0, 0⟩, ⟨900, 700⟩]) heroCircles :=
  C16_touch_uses_first_point ⟨1000, 800⟩ [⟨0, 0⟩, ⟨900, 700⟩] [⟨5, 5⟩] heroCircles
    (List.cons_ne_nil _ _)

/-! ## Rounding error of double arithmetic -/

theorem log2Aux_spec : ∀ fuel n : ℕ, n ≤ fuel → n ≠ 0 →
    2 ^ log2Aux fuel n ≤ n ∧ n < 2 ^ (log2Aux fuel n + 1) := by
  intro fuel
  induction fuel with
  | zero => intro n h h0; omega
  | succ f ih =>
    intro n h h0
    unfold log2Aux
    by_cases h2 : n < 2
    · rw [if_pos h2]
      simp only [pow_zero, zero_add, pow_one]
      omega
    · rw [if_neg h2]
      obtain ⟨i1, i2⟩ := ih (n / 2) (by omega) (by omega)
      rw [pow_succ, pow_succ]
      generalize 2 ^ log2Aux f (n / 2) = p at i1 i2 ⊢
      rw [pow_succ] at i2
      omega

theorem floorLog2_spec (n : ℕ) (h0 : n ≠ 0) :
    2 ^ floorLog2 n ≤ n ∧ n < 2 ^ (floorLog2 n + 1) :=
  log2Aux_spec n n (le_refl n) h0

/-- Rounding to 53 bits moves a number by at most `2 ^ -53` of itself. -/
theorem roundNat_spec (n : ℕ) :
    (roundNat n).1 * 2 ^ (roundNat n).2 * 2 ^ 53 ≤ n * 2 ^ 53 + n ∧
      n * 2 ^ 53 ≤ (roundNat n).1 * 2 ^ (roundNat n).2 * 2 ^ 53 + n := by
  unfold roundNat
  by_cases hsmall : n < 2 ^ 53
  · rw [if_pos hsmall]
    simp only [pow_zero, mul_one]
    omega
  · rw [if_neg hsmall]
    simp only []
    have hn0 : n ≠ 0 := by
      intro h; apply hsmall; rw [h]; positivity
    obtain ⟨hlo, hhi⟩ := floorLog2_spec n hn0
    have hlog : 53 ≤ floorLog2 n := by
      by_contra hlt
      have : 2 ^ (floorLog2 n + 1) ≤ 2 ^ 53 :=
        Nat.pow_le_pow_right (by norm_num) (by omega)
      exact hsmall (lt_of_lt_of_le hhi this)
    obtain ⟨j, hj⟩ : ∃ j, floorLog2 n - 52 = j + 1 := ⟨floorLog2 n - 53, by omega⟩
    have hpow : 2 ^ (j + 53) ≤ n := by
      have e : floorLog2 n = j + 53 := by omega
      rwa [e] at hlo
    rw [hj]
    have hdm := Nat.div_add_mod n (2 ^ (j + 1))
    have hr := Nat.mod_lt n (show 0 < 2 ^ (j + 1) by positivity)
    have h2 : 2 ^ (j + 1) = 2 * 2 ^ j := by rw [pow_succ]; ring
    have h53 : 2 ^ (j + 53) = 2 ^ j * 2 ^ 53 := by rw [pow_add]
    simp only [Nat.add_sub_cancel]
    generalize n / 2 ^ (j + 1) = q at hdm ⊢
    generalize n % 2 ^ (j + 1) = r at hdm hr ⊢
    rw [h53] at hpow
    rw [h2] at hdm hr ⊢
    generalize 2 ^ j = half at hdm hr hpow ⊢
    have hc : 2 * half * q = 2 * (half * q) := by ring
    split_ifs with hup
    · have e1 : (q + 1) * (2 * half) = 2 * (half * q) + 2 * half := by ring
      have hge : half ≤ r := by
        rcases hup with h | h
        · exact h.le
        · exact h.1.ge
      rw [e1]
      rw [hc] at hdm
      generalize half * q = t at hdm ⊢
      constructor <;> nlinarith
    · have e1 : q * (2 * half) = 2 * (half * q) := by ring
      have hle : r ≤ half := by
        by_contra h
        exact hup (Or.inl (not_le.mp h))
      rw [e1]
      rw [hc] at hdm
      generalize half * q = t at hdm ⊢
      constructor <;> nlinarith

theorem roundNearestEven_error (m e : ℤ) :
    |(roundNearestEven m e).toRat - (m : ℚ) * (2 : ℚ) ^ e| ≤ |(m : ℚ) * (2 : ℚ) ^ e| / 2 ^ 53 := by
  obtain ⟨h1, h2⟩ := roundNat_spec m.natAbs
  have hm : (m : ℚ) = (m.sign : ℚ) * (m.natAbs : ℚ) := by
    have h := congrArg (Int.cast : ℤ → ℚ) (Int.sign_mul_natAbs m)
    simp only [Int.cast_mul, Int.cast_natCast] at h
    exact h.symm
  have hP : (0 : ℚ) < (2 : ℚ) ^ e := by positivity
  have q1 : ((roundNat m.natAbs).1 : ℚ) * 2 ^ (roundNat m.natAbs).2 * 2 ^ 53
      ≤ (m.natAbs : ℚ) * 2 ^ 53 + m.natAbs := by exact_mod_cast h1
  have q2 : (m.natAbs : ℚ) * 2 ^ 53
      ≤ ((roundNat m.natAbs).1 : ℚ) * 2 ^ (roundNat m.natAbs).2 * 2 ^ 53 + m.natAbs := by
    exact_mod_cast h2
  have hn : (0 : ℚ) ≤ (m.natAbs : ℚ) := Nat.cast_nonneg _
  have hval : (roundNearestEven m e).toRat - (m : ℚ) * (2 : ℚ) ^ e
      = (m.sign : ℚ) * (2 : ℚ) ^ e *
          (((roundNat m.natAbs).1 : ℚ) * 2 ^ (roundNat m.natAbs).2 - m.natAbs) := by
    simp only [roundNearestEven, JSDouble.toRat]
    rw [zpow_add₀ (two_ne_zero), zpow_natCast]
    simp only [Int.cast_mul, Int.cast_natCast]
    rw [hm]
    ring
  have hgap : |((roundNat m.natAbs).1 : ℚ) * 2 ^ (roundNat m.natAbs).2 - m.natAbs|
      ≤ (m.natAbs : ℚ) / 2 ^ 53 := by
    have hc : (m.natAbs : ℚ) / 2 ^ 53 * 2 ^ 53 = m.natAbs := div_mul_cancel₀ _ (by positivity)
    have hpos : (0 : ℚ) < 2 ^ 53 := by positivity
    rw [abs_le]
    constructor
    · have h : ((m.natAbs : ℚ) - (m.natAbs : ℚ) / 2 ^ 53) * 2 ^ 53
          ≤ ((roundNat m.natAbs).1 : ℚ) * 2 ^ (roundNat m.natAbs).2 * 2 ^ 53 := by
        rw [sub_mul, hc]; linarith
      have := le_of_mul_le_mul_right h hpos
      linarith
    · have h : ((roundNat m.natAbs).1 : ℚ) * 2 ^ (roundNat m.natAbs).2 * 2 ^ 53
          ≤ ((m.natAbs : ℚ) + (m.natAbs : ℚ) / 2 ^ 53) * 2 ^ 53 := by
        rw [add_mul, hc]; linarith
      have := le_of_mul_le_mul_right h hpos
      linarith
  rw [hval, abs_mul, abs_mul, hm, abs_mul, abs_mul, abs_of_pos hP, abs_of_nonneg hn]
  calc |(m.sign : ℚ)| * (2 : ℚ) ^ e *
        |((roundNat m.natAbs).1 : ℚ) * 2 ^ (roundNat m.natAbs).2 - m.natAbs|
      ≤ |(m.sign : ℚ)| * (2 : ℚ) ^ e * ((m.natAbs : ℚ) / 2 ^ 53) :=
        mul_le_mul_of_nonneg_left hgap (by positivity)
    _ = |(m.sign : ℚ)| * (m.natAbs : ℚ) * (2 : ℚ) ^ e / 2 ^ 53 := by ring

theorem zpow_align (x e : ℤ) (h : e ≤ x) :
    ((2 : ℚ) ^ (x - e).toNat) * (2 : ℚ) ^ e = (2 : ℚ) ^ x := by
  rw [← zpow_natCast, Int.toNat_of_nonneg (by omega), ← zpow_add₀ (two_ne_zero)]
  congr 1
  omega

theorem JSDouble.add_error (a b : JSDouble) :
    |(a.add b).toRat - (a.toRat + b.toRat)| ≤ |a.toRat + b.toRat| / 2 ^ 53 := by
  have h := roundNearestEven_error
    (a.mant * 2 ^ (a.expo - min a.expo b.expo).toNat
      + b.mant * 2 ^ (b.expo - min a.expo b.expo).toNat) (min a.expo b.expo)
  have e : ((a.mant * 2 ^ (a.expo - min a.expo b.expo).toNat
      + b.mant * 2 ^ (b.expo - min a.expo b.expo).toNat : ℤ) : ℚ) * (2 : ℚ) ^ (min a.expo b.expo)
      = a.toRat + b.toRat := by
    push_cast
    rw [add_mul, mul_assoc, mul_assoc, zpow_align _ _ (min_le_left _ _),
      zpow_align _ _ (min_le_right _ _)]
    rfl
  rw [e] at h
  exact h

theorem JSDouble.sub_error (a b : JSDouble) :
    |(a.sub b).toRat - (a.toRat - b.toRat)| ≤ |a.toRat - b.toRat| / 2 ^ 53 := by
  have h := roundNearestEven_error
    (a.mant * 2 ^ (a.expo - min a.expo b.expo).toNat
      - b.mant * 2 ^ (b.expo - min a.expo b.expo).toNat) (min a.expo b.expo)
  have e : ((a.mant * 2 ^ (a.expo - min a.expo b.expo).toNat
      - b.mant * 2 ^ (b.expo - min a.expo b.expo).toNat : ℤ) : ℚ) * (2 : ℚ) ^ (min a.expo b.expo)
      = a.toRat - b.toRat := by
    push_cast
    rw [sub_mul, mul_assoc, mul_assoc, zpow_align _ _ (min_le_left _ _),
      zpow_align _ _ (min_le_right _ _)]
    rfl
  rw [e] at h
  exact h

theorem JSDouble.mul_error (a b : JSDouble) :
    |(a.mul b).toRat - a.toRat * b.toRat| ≤ |a.toRat * b.toRat| / 2 ^ 53 := by
  have h := roundNearestEven_error (a.mant * b.mant) (a.expo + b.expo)
  have e : ((a.mant * b.mant : ℤ) : ℚ) * (2 : ℚ) ^ (a.expo + b.expo) = a.toRat * b.toRat := by
    push_cast
    rw [zpow_add₀ (two_ne_zero)]
    simp only [JSDouble.toRat]
    ring
  rw [e] at h
  exact h

theorem JSDouble.toRat_half (a : JSDouble) : a.half.toRat = a.toRat / 2 := by
  simp only [JSDouble.half, JSDouble.toRat]
  rw [zpow_sub₀ (two_ne_zero), zpow_one]
  ring

/-- The literal `0.15` is the double `0x3FC3333333333333`. -/
theorem ofDecimal_15_2 : JSDouble.ofDecimal 15 2 = ⟨5404319552844595, -55⟩ := by
  decide!

/-- Error of `(cx - c) * k` computed with relative rounding error `u` per
operation, where `c` is the rounded centre `C` and `k` the rounded `3/20`. -/
theorem axis_error_bound (u C c cx d k x : ℚ) (hu0 : 0 ≤ u) (hu1 : u ≤ 1)
    (hc : |c - C| ≤ |C| * u) (hd : |d - (cx - c)| ≤ |cx - c| * u)
    (hx : |x - d * k| ≤ |d * k| * u)
    (hk0 : 0 ≤ k) (hk1 : k ≤ 3 / 20) (hk2 : 3 / 20 - k ≤ 3 / 20 * u) :
    |x - 3 / 20 * (cx - C)| ≤ (|cx - C| + |C|) * u := by
  have hA := abs_nonneg (cx - C)
  have hB := abs_nonneg C
  have hE0 := abs_nonneg (cx - c)
  have hD0 := abs_nonneg d
  have hE : |cx - c| ≤ |cx - C| + |C| * u := by
    have e : cx - c = (cx - C) + -(c - C) := by ring
    calc |cx - c| = |(cx - C) + -(c - C)| := by rw [e]
      _ ≤ |cx - C| + |-(c - C)| := abs_add _ _
      _ ≤ |cx - C| + |C| * u := by rw [abs_neg]; linarith
  have hE1 : |cx - c| ≤ |cx - C| + |C| := by
    have : |C| * u ≤ |C| := by nlinarith
    linarith
  have hD : |d| ≤ 2 * |cx - c| := by
    have e : d = (d - (cx - c)) + (cx - c) := by ring
    have h1 : |d| ≤ |d - (cx - c)| + |cx - c| := by
      calc |d| = |(d - (cx - c)) + (cx - c)| := by rw [← e]
        _ ≤ _ := abs_add _ _
    have : |cx - c| * u ≤ |cx - c| := by nlinarith
    linarith
  have key : x - 3 / 20 * (cx - C)
      = (x - d * k) + k * (d - (cx - c)) + -(k * (c - C)) + -((3 / 20 - k) * (cx - C)) := by
    ring
  have hk3 : 0 ≤ 3 / 20 - k := by linarith
  have tri : |x - 3 / 20 * (cx - C)|
      ≤ |x - d * k| + k * |d - (cx - c)| + k * |c - C| + (3 / 20 - k) * |cx - C| := by
    rw [key]
    have a1 := abs_add ((x - d * k) + k * (d - (cx - c)) + -(k * (c - C)))
      (-((3 / 20 - k) * (cx - C)))
    have a2 := abs_add ((x - d * k) + k * (d - (cx - c))) (-(k * (c - C)))
    have a3 := abs_add (x - d * k) (k * (d - (cx - c)))
    rw [abs_neg, abs_mul, abs_of_nonneg hk3] at a1
    rw [abs_neg, abs_mul, abs_of_nonneg hk0] at a2
    rw [abs_mul, abs_of_nonneg hk0] at a3
    linarith
  rw [abs_mul, abs_of_nonneg hk0] at hx
  have s1 : |d| * k * u ≤ (|cx - C| + |C|) * (6 / 20) * u := by
    have : |d| * k ≤ (2 * (|cx - C| + |C|)) * (3 / 20) :=
      mul_le_mul (by linarith) hk1 hk0 (by linarith)
    nlinarith
  have s2 : k * (|cx - c| * u) ≤ (|cx - C| + |C|) * (3 / 20) * u := by
    have : k * |cx - c| ≤ (3 / 20) * (|cx - C| + |C|) :=
      mul_le_mul hk1 hE1 hE0 (by norm_num)
    nlinarith
  have s3 : k * (|C| * u) ≤ |C| * (3 / 20) * u := by
    have : k * |C| ≤ (3 / 20) * |C| := mul_le_mul_of_nonneg_right hk1 hB
    nlinarith
  have s4 : (3 / 20 - k) * |cx - C| ≤ |cx - C| * (3 / 20) * u := by
    have := mul_le_mul_of_nonneg_right hk2 hA
    linarith
  have s5 : k * |d - (cx - c)| ≤ k * (|cx - c| * u) := mul_le_mul_of_nonneg_left hd hk0
  have s6 : k * |c - C| ≤ k * (|C| * u) := mul_le_mul_of_nonneg_left hc hk0
  have hAB : 0 ≤ (|cx - C| + |C|) * u := by positivity
  nlinarith

/-! ## Magnetic button: claims -/

/-- The double for `0.15` lies below `3/20`, within `2 ^ -53` of it relatively. -/
theorem literal_015_bounds :
    0 ≤ (JSDouble.ofDecimal 15 2).toRat ∧ (JSDouble.ofDecimal 15 2).toRat ≤ 3 / 20 ∧
      3 / 20 - (JSDouble.ofDecimal 15 2).toRat ≤ 3 / 20 * (2 ^ 53)⁻¹ := by
  rw [ofDecimal_15_2]
  simp only [JSDouble.toRat]
  norm_num

/-- One axis of `handleMouseMove`: the computed offset against the exact
`0.15 * (client - (start + extent / 2))`. -/
theorem magnetic_axis_error (cx l w : JSDouble) :
    |((cx.sub (l.add w.half)).mul (JSDouble.ofDecimal 15 2)).toRat
        - 0.15 * (cx.toRat - (l.toRat + w.toRat / 2))|
      ≤ (|cx.toRat - (l.toRat + w.toRat / 2)| + |l.toRat + w.toRat / 2|) / 2 ^ 53 := by
  obtain ⟨k0, k1, k2⟩ := literal_015_bounds
  have hc := JSDouble.add_error l w.half
  rw [JSDouble.toRat_half] at hc
  have hd := JSDouble.sub_error cx (l.add w.half)
  have hx := JSDouble.mul_error (cx.sub (l.add w.half)) (JSDouble.ofDecimal 15 2)
  have e : ∀ a : ℚ, a / 2 ^ 53 = a * (2 ^ 53)⁻¹ := fun a => div_eq_mul_inv a _
  rw [e] at hc hd hx ⊢
  have h15 : (0.15 : ℚ) = 3 / 20 := by norm_num
  rw [h15]
  have hu0 : (0 : ℚ) ≤ (2 ^ 53)⁻¹ := inv_nonneg.mpr (by positivity)
  have hu1 : ((2 : ℚ) ^ 53)⁻¹ ≤ 1 := by
    rw [inv_eq_one_div, div_le_one (by positivity)]
    norm_num
  exact axis_error_bound _ _ _ _ _ _ _ hu0 hu1 hc hd hx k0 k1 k2

/-- One axis of `handleMouseMove` for a pointer between `start` and
`start + extent`. -/
theorem magnetic_axis_inside (cx l w : JSDouble)
    (h0 : l.toRat ≤ cx.toRat) (h1 : cx.toRat ≤ l.toRat + w.toRat) :
    |((cx.sub (l.add w.half)).mul (JSDouble.ofDecimal 15 2)).toRat|
      ≤ 0.075 * w.toRat + (w.toRat / 2 + |l.toRat + w.toRat / 2|) / 2 ^ 53 := by
  have herr := magnetic_axis_error cx l w
  have hA : |cx.toRat - (l.toRat + w.toRat / 2)| ≤ w.toRat / 2 :=
    abs_le.mpr ⟨by linarith, by linarith⟩
  have hT : |0.15 * (cx.toRat - (l.toRat + w.toRat / 2))| ≤ 0.075 * w.toRat := by
    rw [abs_mul, abs_of_nonneg (by norm_num : (0 : ℚ) ≤ 0.15)]
    have := mul_le_mul_of_nonneg_left hA (by norm_num : (0 : ℚ) ≤ 0.15)
    have e : (0.15 : ℚ) * (w.toRat / 2) = 0.075 * w.toRat := by norm_num; ring
    linarith
  have hslack : (|cx.toRat - (l.toRat + w.toRat / 2)| + |l.toRat + w.toRat / 2|) / 2 ^ 53
      ≤ (w.toRat / 2 + |l.toRat + w.toRat / 2|) / 2 ^ 53 :=
    div_le_div_of_nonneg_right (by linarith) (by positivity)
  have htri := abs_add
    (((cx.sub (l.add w.half)).mul (JSDouble.ofDecimal 15 2)).toRat
      - 0.15 * (cx.toRat - (l.toRat + w.toRat / 2)))
    (0.15 * (cx.toRat - (l.toRat + w.toRat / 2)))
  rw [sub_add_cancel] at htri
  linarith

/-- The doubles of `edgeBox` and `edgePointer`, and the pointer lying in the
box, on its right edge. -/
theorem edge_values :
    edgeBox.left = ⟨5731534213270733, -45⟩ ∧ edgeBox.width = ⟨4858961785467699, -45⟩ ∧
      edgeBox.top = ⟨5629499534213120, -47⟩ ∧ edgeBox.height = ⟨8444249301319680, -47⟩ ∧
      edgePointer.clientX = ⟨5295247999369216, -44⟩ ∧
      edgePointer.clientY = ⟨4925812092436480, -46⟩ := by
  decide!

theorem edge_inside :
    edgeBox.left.toRat ≤ edgePointer.clientX.toRat ∧
      edgePointer.clientX.toRat ≤ edgeBox.left.toRat + edgeBox.width.toRat ∧
      edgeBox.top.toRat ≤ edgePointer.clientY.toRat ∧
      edgePointer.clientY.toRat ≤ edgeBox.top.toRat + edgeBox.height.toRat := by
  obtain ⟨h1, h2, h3, h4, h5, h6⟩ := edge_values
  rw [h1, h2, h3, h4, h5, h6]
  simp only [JSDouble.toRat]
  norm_num

/-- C20 (as the code behaves). For every bounding box and pointer position the
mouse-move handler of a `MagneticButton` sets the offset to 0.15 times the
pointer's displacement from the box centre `(left + width/2, top + height/2)`
as double arithmetic computes it: within `(|displacement| + |centre|) * 2^-53`
of the exact product on each axis. For a pointer inside the box this gives
`|x| ≤ 0.075 * width + (width/2 + |left + width/2|) * 2^-53` and the same for
`y` with `top` and `height`. The mouse-leave handler sets the offset to
`(0, 0)` whatever it was. -/
theorem C20_magnetic_button (rect : DOMRect) (e : MouseEvent) (previous : Position) :
    |(MagneticButton.handleMouseMove rect e).x.toRat
        - 0.15 * (e.clientX.toRat - (rect.left.toRat + rect.width.toRat / 2))|
      ≤ (|e.clientX.toRat - (rect.left.toRat + rect.width.toRat / 2)|
          + |rect.left.toRat + rect.width.toRat / 2|) / 2 ^ 53 ∧
    |(MagneticButton.handleMouseMove rect e).y.toRat
        - 0.15 * (e.clientY.toRat - (rect.top.toRat + rect.height.toRat / 2))|
      ≤ (|e.clientY.toRat - (rect.top.toRat + rect.height.toRat / 2)|
          + |rect.top.toRat + rect.height.toRat / 2|) / 2 ^ 53 ∧
    (rect.left.toRat ≤ e.clientX.toRat → e.clientX.toRat ≤ rect.left.toRat + rect.width.toRat →
      |(MagneticButton.handleMouseMove rect e).x.toRat|
        ≤ 0.075 * rect.width.toRat
          + (rect.width.toRat / 2 + |rect.left.toRat + rect.width.toRat / 2|) / 2 ^ 53) ∧
    (rect.top.toRat ≤ e.clientY.toRat → e.clientY.toRat ≤ rect.top.toRat + rect.height.toRat →
      |(MagneticButton.handleMouseMove rect e).y.toRat|
        ≤ 0.075 * rect.height.toRat
          + (rect.height.toRat / 2 + |rect.top.toRat + rect.height.toRat / 2|) / 2 ^ 53) ∧
    MagneticButton.handleMouseLeave previous = { x := ⟨0, 0⟩, y := ⟨0, 0⟩ } ∧
    (MagneticButton.handleMouseLeave previous).x.toRat = 0 ∧
    (MagneticButton.handleMouseLeave previous).y.toRat = 0 := by
  refine ⟨magnetic_axis_error _ _ _, magnetic_axis_error _ _ _,
    magnetic_axis_inside _ _ _, magnetic_axis_inside _ _ _, rfl, ?_, ?_⟩ <;>
    simp [MagneticButton.handleMouseLeave, JSDouble.toRat]

theorem C20_magnetic_button_witness :
    edgeBox.left.toRat ≤ edgePointer.clientX.toRat ∧
      edgePointer.clientX.toRat ≤ edgeBox.left.toRat + edgeBox.width.toRat ∧
      |(MagneticButton.handleMouseMove edgeBox edgePointer).x.toRat|
        ≤ 0.075 * edgeBox.width.toRat
          + (edgeBox.width.toRat / 2 + |edgeBox.left.toRat + edgeBox.width.toRat / 2|) / 2 ^ 53 :=
  ⟨edge_inside.1, edge_inside.2.1,
   (C20_magnetic_button edgeBox edgePointer ⟨⟨1, 0⟩, ⟨1, 0⟩⟩).2.2.1 edge_inside.1 edge_inside.2.1⟩

/-- C20 fails as stated: for the box `left = 162.9`, `width = 138.1` and a
pointer at `clientX = 301`, inside the box on its right edge, the handler sets
`x = 10.357500000000002` (the double `5830754142561240 * 2^-49`), which exceeds
`0.075 * width`, both the exact product and the double `10.3575` that
`0.075 * width` evaluates to. -/
theorem C20_counterexample :
    edgeBox.left.toRat ≤ edgePointer.clientX.toRat ∧
      edgePointer.clientX.toRat ≤ edgeBox.left.toRat + edgeBox.width.toRat ∧
      edgeBox.top.toRat ≤ edgePointer.clientY.toRat ∧
      edgePointer.clientY.toRat ≤ edgeBox.top.toRat + edgeBox.height.toRat ∧
      (MagneticButton.handleMouseMove edgeBox edgePointer).x = ⟨5830754142561240, -49⟩ ∧
      (JSDouble.ofDecimal 75 3).mul edgeBox.width = ⟨5830754142561239, -49⟩ ∧
      ¬ (|(MagneticButton.handleMouseMove edgeBox edgePointer).x.toRat|
          ≤ 0.075 * edgeBox.width.toRat) ∧
      ¬ (|(MagneticButton.handleMouseMove edgeBox edgePointer).x.toRat|
          ≤ ((JSDouble.ofDecimal 75 3).mul edgeBox.width).toRat) := by
  have hx : (MagneticButton.handleMouseMove edgeBox edgePointer).x
      = ⟨5830754142561240, -49⟩ := by decide!
  have hp : (JSDouble.ofDecimal 75 3).mul edgeBox.width = ⟨5830754142561239, -49⟩ := by
    decide!
  refine ⟨edge_inside.1, edge_inside.2.1, edge_inside.2.2.1, edge_inside.2.2.2, hx, hp, ?_, ?_⟩
  · rw [hx, edge_values.2.1]
    simp only [JSDouble.toRat]
    norm_num [abs_of_pos]
  · rw [hx, hp]
    simp only [JSDouble.toRat]
    norm_num [abs_of_pos]

/-! ## Scrolling down never moves the highlight back -/

theorem scrolledPast_mono (d : Dom) (s1 s2 : ℚ) (h : s1 ≤ s2) (sec : SectionDescriptor)
    (hp : scrolledPast d s1 sec = true) : scrolledPast d s2 sec = true := by
  unfold scrolledPast at hp ⊢
  cases hel : d.getElementById sec.id with
  | none => rw [hel] at hp; exact absurd hp (by simp)
  | some el =>
    rw [hel] at hp
    simp only [decide_eq_true_eq] at hp ⊢
    exact le_trans hp h

/-- The loop ends on its starting value or on the id of a scanned section. -/
theorem foldl_scanStep_mem (d : Dom) (s : ℚ) (secs : List SectionDescriptor) (init : String) :
    secs.foldl (scanStep d s) init ∈ init :: secs.map (·.id) := by
  rw [foldl_scanStep]
  cases hl : (secs.filter (scrolledPast d s)).getLast? with
  | none => exact List.mem_cons_self _ _
  | some sec =>
    have hm := (List.mem_filter.mp (List.mem_of_getLast?_eq_some hl)).1
    exact List.mem_cons_of_mem _ (List.mem_map_of_mem _ hm)

/-- For any ranking of ids along which the starting value and the scanned
sections are in non-decreasing order, the loop at a larger scroll position
ends on an id ranked no lower. -/
theorem foldl_scanStep_mono (idx : String → Nat) (d : Dom) (s1 s2 : ℚ) (h : s1 ≤ s2)
    (secs : List SectionDescriptor) (init : String)
    (hs : (init :: secs.map (·.id)).Pairwise (fun x y => idx x ≤ idx y)) :
    idx (secs.foldl (scanStep d s1) init) ≤ idx (secs.foldl (scanStep d s2) init) := by
  induction secs using List.reverseRecOn with
  | nil => simp
  | append_singleton l a ih =>
    rw [List.map_append, ← List.cons_append, List.pairwise_append] at hs
    obtain ⟨hl, _, hlast⟩ := hs
    rw [List.foldl_append, List.foldl_append]
    simp only [List.foldl_cons, List.foldl_nil, scanStep_eq_ite]
    by_cases q : scrolledPast d s2 a = true
    · by_cases p : scrolledPast d s1 a = true
      · simp [p, q]
      · simp only [p, q, if_true]
        exact hlast _ (foldl_scanStep_mem d s1 l init) _ (by simp)
    · have p : ¬ scrolledPast d s1 a = true := fun hp => q (scrolledPast_mono d s1 s2 h a hp)
      simp only [p, q]
      exact ih hl

/-- C18. For every fixed layout of anchors (any offsets, any anchors missing)
and scroll positions `s1 ≤ s2`, the active section at `s1` stands no later in
the declared `sections` list than the active section at `s2`. -/
theorem C18_highlight_never_moves_back (d : Dom) (s1 s2 : ℚ) (h : s1 ≤ s2) :
    sectionIndex (onScroll { d with scrollY := s1 }).activeSection
      ≤ sectionIndex (onScroll { d with scrollY := s2 }).activeSection := by
  have hs : ("hero" :: sections.map (·.id)).Pairwise
      (fun x y => sectionIndex x ≤ sectionIndex y) := by
    decide
  have key := foldl_scanStep_mono sectionIndex d s1 s2 h sections "hero" hs
  have e : ∀ s : ℚ, (onScroll { d with scrollY := s }).activeSection
      = sections.foldl (scanStep d s) "hero" := by
    intro s
    show detectActive sections { d with scrollY := s } s = _
    unfold detectActive
    have hstep : scanStep { d with scrollY := s } s = scanStep d s := by
      funext cur sec
      rfl
    rw [hstep]
  rw [e s1, e s2]
  exact key

theorem C18_highlight_never_moves_back_witness :
    sectionIndex (onScroll { threeAnchors 0 3000 600 with scrollY := 100 }).activeSection
      ≤ sectionIndex (onScroll { threeAnchors 0 3000 600 with scrollY := 900 }).activeSection :=
  C18_highlight_never_moves_back (threeAnchors 0 3000 600) 100 900 (by norm_num)

/-! ## Entrance reveal: claims -/

theorem revealStep_of_true (flags : RevealFlags) (ob : Observation) (sec : AnimatedSection)
    (h : flags sec = true) : revealStep flags ob sec = true := by
  unfold revealStep useInViewOnce
  by_cases e : sec = ob.target
  · rw [if_pos e, h]
    rfl
  · rw [if_neg e]
    exact h

/-- A set flag stays set under any observations. -/
theorem revealRun_of_true (sec : AnimatedSection) (obs : List Observation) :
    ∀ flags : RevealFlags, flags sec = true → revealRun flags obs sec = true := by
  induction obs with
  | nil => intro flags h; exact h
  | cons ob rest ih =>
    intro flags h
    exact ih (revealStep flags ob) (revealStep_of_true flags ob sec h)

/-- A clear flag stays clear while its section is not observed intersecting. -/
theorem revealRun_of_no_intersection (sec : AnimatedSection) (obs : List Observation) :
    ∀ flags : RevealFlags, flags sec = false →
      (∀ ob ∈ obs, ob.target = sec → ob.isIntersecting = false) →
      revealRun flags obs sec = false := by
  induction obs with
  | nil => intro flags h _; exact h
  | cons ob rest ih =>
    intro flags h hno
    refine ih (revealStep flags ob) ?_ (fun o ho => hno o (List.mem_cons_of_mem _ ho))
    unfold revealStep useInViewOnce
    by_cases e : sec = ob.target
    · have := hno ob (List.mem_cons_self _ _) e.symm
      rw [← e]
      simp [h, this]
    · simp [e, h]

theorem revealRun_append (flags : RevealFlags) (xs ys : List Observation) :
    revealRun flags (xs ++ ys) = revealRun (revealRun flags xs) ys := by
  simp [revealRun, List.foldl_append]

theorem revealTransitions_of_true (sec : AnimatedSection) (obs : List Observation) :
    ∀ flags : RevealFlags, flags sec = true → revealTransitions sec flags obs = 0 := by
  induction obs with
  | nil => intro flags _; rfl
  | cons ob rest ih =>
    intro flags h
    simp [revealTransitions, h, ih (revealStep flags ob) (revealStep_of_true flags ob sec h)]

theorem revealTransitions_le_one (sec : AnimatedSection) (obs : List Observation) :
    ∀ flags : RevealFlags, revealTransitions sec flags obs ≤ 1 := by
  induction obs with
  | nil => intro flags; simp [revealTransitions]
  | cons ob rest ih =>
    intro flags
    by_cases h : flags sec = false ∧ revealStep flags ob sec = true
    · simp [revealTransitions, h, revealTransitions_of_true sec rest _ h.2]
    · have := ih (revealStep flags ob)
      simp only [revealTransitions, h, if_false]
      omega

/-- C15. For each of the four animated sections the reveal flag is `false` at
mount and as long as the section has not been observed intersecting, is `true`
right after the first observation of it intersecting, and is `true` after any
later observations, intersecting or not, of any section; along every sequence
of observations the flag goes from `false` to `true` at most once, and once
the variant selected from it is `"visible"` it is never `"hidden"` again. -/
theorem C15_reveal_is_one_shot (sec : AnimatedSection) (before later obs : List Observation)
    (hbefore : ∀ ob ∈ before, ob.target = sec → ob.isIntersecting = false) :
    revealInitial sec = false ∧
      animateVariant (revealInitial sec) = "hidden" ∧
      revealRun revealInitial before sec = false ∧
      revealRun revealInitial (before ++ [⟨sec, true⟩]) sec = true ∧
      revealRun revealInitial (before ++ [⟨sec, true⟩] ++ later) sec = true ∧
      animateVariant (revealRun revealInitial (before ++ [⟨sec, true⟩] ++ later) sec)
        = "visible" ∧
      revealTransitions sec revealInitial obs ≤ 1 := by
  have h0 : revealRun revealInitial before sec = false :=
    revealRun_of_no_intersection sec before revealInitial rfl hbefore
  have h1 : revealRun revealInitial (before ++ [⟨sec, true⟩]) sec = true := by
    rw [revealRun_append]
    simp [revealRun, revealStep, useInViewOnce]
  have h2 : revealRun revealInitial (before ++ [⟨sec, true⟩] ++ later) sec = true := by
    rw [revealRun_append]
    exact revealRun_of_true sec later _ h1
  refine ⟨rfl, rfl, h0, h1, h2, ?_, revealTransitions_le_one sec obs revealInitial⟩
  rw [h2]
  rfl

theorem C15_reveal_is_one_shot_witness :
    revealInitial .faq = false ∧
      animateVariant (revealInitial .faq) = "hidden" ∧
      revealRun revealInitial [⟨.features, true⟩, ⟨.faq, false⟩] .faq = false ∧
      revealRun revealInitial ([⟨.features, true⟩, ⟨.faq, false⟩] ++ [⟨.faq, true⟩]) .faq = true ∧
      revealRun revealInitial
        ([⟨.features, true⟩, ⟨.faq, false⟩] ++ [⟨.faq, true⟩] ++ [⟨.faq, false⟩, ⟨.faq, true⟩]) .faq
          = true ∧
      animateVariant (revealRun revealInitial
        ([⟨.features, true⟩, ⟨.faq, false⟩] ++ [⟨.faq, true⟩] ++ [⟨.faq, false⟩, ⟨.faq, true⟩]) .faq)
          = "visible" ∧
      revealTransitions .faq revealInitial
        [⟨.faq, true⟩, ⟨.faq, false⟩, ⟨.faq, true⟩] ≤ 1 :=
  C15_reveal_is_one_shot .faq [⟨.features, true⟩, ⟨.faq, false⟩] [⟨.faq, false⟩, ⟨.faq, true⟩]
    [⟨.faq, true⟩, ⟨.faq, false⟩, ⟨.faq, true⟩] (by decide)

/-! ## Scroll-linked transforms: claims -/

/-- C17. With each output the clamped linear interpolation of its configured
ranges: the first decoration's opacity is 1 at progress 0, is 0.3 at every
progress from 0.5 on, and lies in `[0.3, 1]` for every progress (so for every
one in `[0, 1]`);
its vertical translation is 0% at progress 0 and 50% at progress 1; the second
decoration's opacity is the interpolation of its own range `[0.2, 0.7]` onto
`[1, 0.4]` (1 up to 0.2, 0.4 from 0.7 on) and so differs from the first at
progress 0.5. -/
theorem C17_scroll_linked_outputs (p q : ℚ) (hq : 0.5 ≤ q) :
    parallaxOpacity1 0 = 1 ∧
      parallaxOpacity1 q = 0.3 ∧
      0.3 ≤ parallaxOpacity1 p ∧ parallaxOpacity1 p ≤ 1 ∧
      parallaxY1 0 = 0 ∧ parallaxY1 1 = 50 ∧
      parallaxOpacity2 p = useTransform p (0.2, 0.7) (1, 0.4) ∧
      parallaxOpacity2 0.2 = 1 ∧ parallaxOpacity2 0.7 = 0.4 ∧
      parallaxOpacity1 0.5 = 0.3 ∧ parallaxOpacity2 0.5 = 0.64 := by
  refine ⟨?_, ?_, ?_, ?_, ?_, ?_, rfl, ?_, ?_, ?_, ?_⟩
  · simp [parallaxOpacity1, useTransform]
  · have hq0 : ¬ q ≤ 0 := by
      intro hle
      have : (0.5 : ℚ) ≤ 0 := le_trans hq hle
      norm_num at this
    simp [parallaxOpacity1, useTransform, hq0, hq]
  · unfold parallaxOpacity1 useTransform
    split_ifs with h1 h2
    · norm_num
    · norm_num
    · have e : (1 : ℚ) + (0.3 - 1) * ((p - 0) / (0.5 - 0)) = 1 - 1.4 * p := by
        norm_num; ring
      have h2p : p < 0.5 := lt_of_not_le h2
      simp only
      rw [e]
      norm_num at h2p ⊢
      linarith
  · unfold parallaxOpacity1 useTransform
    split_ifs with h1 h2
    · norm_num
    · norm_num
    · have e : (1 : ℚ) + (0.3 - 1) * ((p - 0) / (0.5 - 0)) = 1 - 1.4 * p := by
        norm_num; ring
      have h1p : 0 < p := lt_of_not_le h1
      simp only
      rw [e]
      norm_num
      linarith
  · simp [parallaxY1, useTransform]
  · simp [parallaxY1, useTransform]
  · simp [parallaxOpacity2, useTransform]
  · simp [parallaxOpacity2, useTransform]; norm_num
  · simp [parallaxOpacity1, useTransform]; norm_num
  · simp [parallaxOpacity2, useTransform]; norm_num

theorem C17_scroll_linked_outputs_witness :
    parallaxOpacity1 0 = 1 ∧
      parallaxOpacity1 (3 / 4) = 0.3 ∧
      0.3 ≤ parallaxOpacity1 (1 / 4) ∧ parallaxOpacity1 (1 / 4) ≤ 1 ∧
      parallaxY1 0 = 0 ∧ parallaxY1 1 = 50 ∧
      parallaxOpacity2 (1 / 4) = useTransform (1 / 4) (0.2, 0.7) (1, 0.4) ∧
      parallaxOpacity2 0.2 = 1 ∧ parallaxOpacity2 0.7 = 0.4 ∧
      parallaxOpacity1 0.5 = 0.3 ∧ parallaxOpacity2 0.5 = 0.64 :=
  C17_scroll_linked_outputs (1 / 4) (3 / 4) (by norm_num)

end NumiLanding
